import Mathlib

set_option maxRecDepth 8000

/-!
Shallow embedding of `src/BusinessTime.ts` (the `BusinessTime` engine of
ts-business-time).

Conventions of the embedding:

* A moment.js instant is its UTC timestamp in whole milliseconds (`Ms := Int`);
  moment.js stores instants at millisecond resolution.
* A moment.js duration is its length in milliseconds as a rational number
  (`Dur := Rat`); `asSeconds`/`asMinutes`/`asHours`/`asDays` divide by the
  corresponding factor.  JavaScript number arithmetic on these conversion
  ratios is modelled as exact rational arithmetic.
* A `big.js` decimal is a rational number.  `plus`/`minus`/`times` are exact in
  big.js and are modelled exactly; `div` rounds the quotient to `Big.DP = 20`
  decimal places with rounding mode `Big.RM = 1` (round half away from zero),
  modelled by `bigDiv`; `round(0, 0)` uses rounding mode 0 (`RoundDown`,
  towards zero), modelled by `bigRound00`.
* A constraint (`IBusinessTimeConstraint`) is its `isBusinessTime` predicate
  `Ms → Bool`.
* `while` loops whose iteration count is bounded by the time span are run with
  an explicitly computed iteration budget (`diffStepsFuel`); genuinely
  unbounded loops (`startOfBusinessDay`, `endOfBusinessDay`, the add/sub
  correction loops) take a fuel argument and return `none` when it runs out.
  A thrown `Error` is `Except.error` with the message.
* moment.js `startOf`/`endOf` mutate the receiver's moment in place, so the
  corresponding operations are modelled as returning a pair
  `(result, receiver after the call)`.
-/

/-- A moment.js instant: UTC milliseconds since the Unix epoch. -/
abbrev Ms := Int

/-- A moment.js duration: milliseconds, as an exact rational. -/
abbrev Dur := Rat

/-- An `IBusinessTimeConstraint`, reduced to its `isBusinessTime` predicate. -/
abbrev Constraint := Ms → Bool

/-- Millisecond timestamp of the start of the UTC calendar day containing `t`
(what `moment.startOf("day")` sets the moment to). -/
def dayStartMs (t : Ms) : Ms := 86400000 * t.fdiv 86400000

/-- Millisecond timestamp of `moment.endOf("day")`: 23:59:59.999 of the UTC
calendar day containing `t`. -/
def endOfDayMs (t : Ms) : Ms := dayStartMs t + 86399999

/-- The UTC hour of day of an instant (`moment.hour()`), in `0..23`. -/
def hourOfDay (t : Ms) : Int := (t - dayStartMs t).fdiv 3600000

/-- The UTC day of week of an instant (`moment.day()`): 0 = Sunday .. 6 =
Saturday.  The Unix epoch 1970-01-01 was a Thursday (day 4). -/
def dayOfWeek (t : Ms) : Int := (t.fdiv 86400000 + 4).emod 7

/-- Floor of an instant to its calendar minute. -/
def minuteFloor (t : Ms) : Ms := t.fdiv 60000

/-- `a.isSame(b, "minutes")`: the two instants fall in the same calendar
minute. -/
def sameMinute (a b : Ms) : Bool := decide (minuteFloor a = minuteFloor b)

/-- `big.js` `x.round(0, 0)`: round to 0 decimal places with rounding mode 0
(`Big.roundDown`), i.e. truncate towards zero. -/
def bigRound00 (q : Rat) : Int := if 0 ≤ q then ⌊q⌋ else ⌈q⌉

/-- `big.js` rounding mode 1 (`Big.roundHalfUp`): round to the nearest
integer, ties away from zero. -/
def bigRoundHalfUp (q : Rat) : Int := if 0 ≤ q then ⌊q + 1/2⌋ else ⌈q - 1/2⌉

/-- `big.js` `x.div(y)`: the quotient rounded to `Big.DP = 20` decimal places
with rounding mode `Big.RM = 1` (exact quotients are returned exactly). -/
def bigDiv (x y : Rat) : Rat := (bigRoundHalfUp (x / y * 10 ^ 20) : Rat) / 10 ^ 20

/-- `duration.asSeconds()`. -/
def durAsSeconds (d : Dur) : Rat := d / 1000

/-- `duration.asMinutes()`. -/
def durAsMinutes (d : Dur) : Rat := d / 60000

/-- `duration.asHours()`. -/
def durAsHours (d : Dur) : Rat := d / 3600000

/-- `duration.asDays()`. -/
def durAsDays (d : Dur) : Rat := d / 86400000

/-- Modelled from the spec (the constraint implementations live outside
`src/`): the default `BetweenHoursOfDay(9, 17)` constraint, an hour-of-day
window.  Per the spec's default constraints "hours 09:00-17:00", an instant is
business time when its hour of day lies in `[startHour, endHour)`: 09:00 is
business time and the 17:00 boundary is not. -/
def betweenHoursOfDay (startHour endHour : Int) : Constraint := fun t =>
  decide (startHour ≤ hourOfDay t) && decide (hourOfDay t < endHour)

/-- Modelled from the spec (the constraint implementations live outside
`src/`): the default `WeekDays()` constraint, true on Monday..Friday. -/
def weekDays : Constraint := fun t =>
  decide (1 ≤ dayOfWeek t) && decide (dayOfWeek t ≤ 5)

/-- The constructor's default constraint list:
`[new BetweenHoursOfDay(9, 17), new WeekDays()]`. -/
def defaultConstraints : List Constraint := [betweenHoursOfDay 9 17, weekDays]

/-- The `BusinessTime` engine: an instant, a step precision (milliseconds; the
constructor default is 1 hour), the ordered constraint list, and the lazily
filled business-day-length cache. -/
structure BusinessTime where
  moment : Ms
  precision : Nat
  constraints : List Constraint
  lengthOfBusinessDayCached : Option Dur

/-- `isBusinessTime()`: the AND of the constraint list in supplied order,
short-circuiting on the first `false`. -/
def BusinessTime.isBusinessTime (e : BusinessTime) : Bool :=
  e.constraints.all fun c => c e.moment

/-- `atMoment(time)`: a new engine at `time` carrying the receiver's precision
and constraints; the length-of-business-day cache is not carried forward. -/
def BusinessTime.atMoment (e : BusinessTime) (t : Ms) : BusinessTime :=
  ⟨t, e.precision, e.constraints, none⟩

/-- `add` with a plain duration argument (`this.add(this.precision)`):
`atMoment(this.moment.clone().add(d))`. -/
def BusinessTime.addMs (e : BusinessTime) (d : Nat) : BusinessTime :=
  e.atMoment (e.moment + d)

/-- `subtract` with a plain duration argument:
`atMoment(this.moment.clone().subtract(d))`. -/
def BusinessTime.subMs (e : BusinessTime) (d : Nat) : BusinessTime :=
  e.atMoment (e.moment - d)

/-- `this.add(n, "days")` for a whole-number day count (UTC mode: one day is
exactly 86400000 ms). -/
def BusinessTime.addDays (e : BusinessTime) (d : Int) : BusinessTime :=
  e.atMoment (e.moment + 86400000 * d)

/-- `this.subtract(n, "days")` for a whole-number day count. -/
def BusinessTime.subDays (e : BusinessTime) (d : Int) : BusinessTime :=
  e.atMoment (e.moment - 86400000 * d)

/-- `startOf("day")`: the source runs `this.atMoment(this.moment.startOf("day"))`,
and `moment.startOf` mutates the moment in place, so the receiver's instant
changes too.  Returns `(result, receiver after the call)`. -/
def BusinessTime.startOfDayRun (e : BusinessTime) : BusinessTime × BusinessTime :=
  (⟨dayStartMs e.moment, e.precision, e.constraints, none⟩,
   { e with moment := dayStartMs e.moment })

/-- `endOf("day")`, with the same in-place mutation of the receiver's moment as
`startOf`.  Returns `(result, receiver after the call)`. -/
def BusinessTime.endOfDayRun (e : BusinessTime) : BusinessTime × BusinessTime :=
  (⟨endOfDayMs e.moment, e.precision, e.constraints, none⟩,
   { e with moment := endOfDayMs e.moment })

/-- The body of the `diffInBusinessTime` while loop: starting at `x`, while
`x < endMs`, count the steps whose instant satisfies `p`, advancing by `prec`
each iteration.  The iteration budget is passed explicitly; with the budget
`diffStepsFuel` below it is never exhausted when `0 < prec`. -/
def diffStepsAux (p : Ms → Bool) (prec : Nat) (endMs : Ms) :
    Nat → Ms → Rat → Rat
  | 0, _, diff => diff
  | fuel + 1, x, diff =>
    if x < endMs then
      diffStepsAux p prec endMs fuel (x + prec) (if p x then diff + 1 else diff)
    else diff

/-- Exact number of iterations of the `diffInBusinessTime` loop from `startMs`
to `endMs` in steps of `prec` (the ceiling of the span divided by the step).
For `prec = 0` the source loop never advances and never terminates; this
budget is then 0, so the model returns the count accumulated so far (0). -/
def diffStepsFuel (prec : Nat) (startMs endMs : Ms) : Nat :=
  ((endMs - startMs).toNat + prec - 1) / prec

/-- `diffInBusinessTime(time, absolute)`: 0 when the operands share a calendar
minute; otherwise step from the earlier instant to the later one in steps of
`this.precision`, counting the steps that are business time, and negate when
the operands were swapped and `absolute` is false.  The stepping engine is
built as `new BusinessTime(start.clone())`, i.e. with the constructor's
DEFAULT constraint list (not `this.constraints`); it advances by
`this.precision`, so the count tests the default constraints. -/
def BusinessTime.diffInBusinessTime (e : BusinessTime) (time : Ms)
    (absolute : Bool) : Rat :=
  if sameMinute time e.moment then 0
  else if time < e.moment then
    diffStepsAux (BusinessTime.isBusinessTime ⟨·, 3600000, defaultConstraints, none⟩)
        e.precision e.moment (diffStepsFuel e.precision time e.moment) time 0
      * (if absolute then 1 else -1)
  else
    diffStepsAux (BusinessTime.isBusinessTime ⟨·, 3600000, defaultConstraints, none⟩)
        e.precision time (diffStepsFuel e.precision e.moment time) e.moment 0
      * 1

/-- `diffBusiness(time, absolute)`: the step count times the precision in
seconds, wrapped back into a duration (milliseconds). -/
def BusinessTime.diffBusiness (e : BusinessTime) (time : Ms)
    (absolute : Bool) : Dur :=
  (e.diffInBusinessTime time absolute * durAsSeconds (e.precision : Dur)) * 1000

/-- The `startOfBusinessDay` search loop: while the engine is not business
time, step forward by `prec` (`start = start.add(this.precision)`).  The loop
is unbounded in the source (it never terminates when the constraints admit no
business time), so it takes fuel and returns `none` when the fuel runs out. -/
def businessSearchUp (prec : Nat) : Nat → BusinessTime → Option BusinessTime
  | 0, _ => none
  | fuel + 1, s => if s.isBusinessTime then some s else businessSearchUp prec fuel (s.addMs prec)

/-- The `endOfBusinessDay` search loop: while the engine is not business time,
step backward by `prec` (`end = end.subtract(this.precision)`).  Fueled like
`businessSearchUp`. -/
def businessSearchDown (prec : Nat) : Nat → BusinessTime → Option BusinessTime
  | 0, _ => none
  | fuel + 1, s => if s.isBusinessTime then some s else businessSearchDown prec fuel (s.subMs prec)

/-- `startOfBusinessDay()`: iterate from the beginning of the day until the
first business time.  `this.startOf("day")` mutates the receiver's moment, so
the pair `(result, receiver after the call)` is returned. -/
def BusinessTime.startOfBusinessDayRun (e : BusinessTime) (fuel : Nat) :
    Option (BusinessTime × BusinessTime) :=
  match e.startOfDayRun with
  | (start, receiver) => (businessSearchUp e.precision fuel start).map fun r => (r, receiver)

/-- The result engine of `startOfBusinessDay()`. -/
def BusinessTime.startOfBusinessDay (e : BusinessTime) (fuel : Nat) :
    Option BusinessTime :=
  (e.startOfBusinessDayRun fuel).map fun p => p.1

/-- `endOfBusinessDay()`: iterate back from the end of the day (23:59:59.999)
until the first business time, with the same receiver mutation via
`this.endOf("day")`. -/
def BusinessTime.endOfBusinessDayRun (e : BusinessTime) (fuel : Nat) :
    Option (BusinessTime × BusinessTime) :=
  match e.endOfDayRun with
  | (endE, receiver) => (businessSearchDown e.precision fuel endE).map fun r => (r, receiver)

/-- The result engine of `endOfBusinessDay()`. -/
def BusinessTime.endOfBusinessDay (e : BusinessTime) (fuel : Nat) :
    Option BusinessTime :=
  (e.endOfBusinessDayRun fuel).map fun p => p.1

/-- The message of the `Error` thrown for a non-positive business day length. -/
def zeroLengthMsg : String := "Business day cannot be zero-length."

/-- The message of the `Error` thrown for a business day longer than 24 hours
(the source appends the offending hour count; the template text is kept). -/
def tooLongMsg : String := "Length of business day cannot be more than 24 hours"

/-- `setLengthOfBusinessDay(duration)`: the cache field is assigned FIRST,
then the duration is validated; on failure the error is thrown with the cache
already holding the invalid duration.  Returns `(receiver after the call,
thrown error or returned engine)`; on success the source returns `this`. -/
def BusinessTime.setLengthOfBusinessDay (e : BusinessTime) (d : Dur) :
    BusinessTime × Except String BusinessTime :=
  let e' : BusinessTime := { e with lengthOfBusinessDayCached := some d }
  if durAsMinutes d ≤ 0 then (e', .error zeroLengthMsg)
  else if 24 < durAsHours d then (e', .error tooLongMsg)
  else (e', .ok e')

/-- `moment("2018-05-23T00:00:00Z", ISO_8601)`: the fixed typical day used by
`determineLengthOfBusinessDay` (a Wednesday). -/
def typicalDayMs : Ms := 1527033600000

/-- The duration computed by `determineLengthOfBusinessDay` before it is
stored: anchor a temporary engine `this.atMoment(typicalDay)` (which depends
on `this` only through its precision and constraints, factored out here as
`prec` and `cs`), take its `startOfBusinessDay()` and `endOfBusinessDay()`
(the first call mutates the temporary engine's moment, which the second call
then sees), and compute `diffBusiness` between the two instants from
`this.atMoment(startOfBusinessDay)`. -/
def determineLengthCore (prec : Nat) (cs : List Constraint) (fuel : Nat) :
    Option Dur :=
  let typicalBusinessDay : BusinessTime := ⟨typicalDayMs, prec, cs, none⟩
  match typicalBusinessDay.startOfBusinessDayRun fuel with
  | none => none
  | some (s, typical1) =>
    match typical1.endOfBusinessDayRun fuel with
    | none => none
    | some (en, _) =>
      some (BusinessTime.diffBusiness ⟨s.moment, prec, cs, none⟩ en.moment true)

/-- `determineLengthOfBusinessDay()`: compute the typical-day duration and
pass it to `setLengthOfBusinessDay` (which caches it, validates it, and may
throw). -/
def BusinessTime.determineLengthOfBusinessDay (e : BusinessTime) (fuel : Nat) :
    Option (BusinessTime × Except String BusinessTime) :=
  (determineLengthCore e.precision e.constraints fuel).map fun len =>
    e.setLengthOfBusinessDay len

/-- `lengthOfBusinessDay()`: if the cache is unset (the moment.Duration object
is always truthy, so `!cached` is exactly the undefined check), determine and
cache it, then return the cached duration.  Returns `(receiver after the
call, thrown error or duration)`. -/
def BusinessTime.lengthOfBusinessDay (e : BusinessTime) (fuel : Nat) :
    Option (BusinessTime × Except String Dur) :=
  match e.lengthOfBusinessDayCached with
  | some d => some (e, .ok d)
  | none =>
    (e.determineLengthOfBusinessDay fuel).map fun p =>
      match p.2 with
      | .ok _ => (p.1, .ok (p.1.lengthOfBusinessDayCached.getD 0))
      | .error msg => (p.1, .error msg)

/-- The duration value produced by `lengthOfBusinessDay()` (discarding the
receiver state). -/
def BusinessTime.lengthValue (e : BusinessTime) (fuel : Nat) :
    Option (Except String Dur) :=
  (e.lengthOfBusinessDay fuel).map fun p => p.2

/-- `diffInPartialBusinessDays(time, absolute)`: the step count divided (by
big.js division) by the ratio `lengthOfBusinessDay().asSeconds() /
this.precision.asSeconds()` (plain JavaScript number division, modelled as
exact rational division). -/
def BusinessTime.diffInPartialBusinessDays (e : BusinessTime) (time : Ms)
    (absolute : Bool) (fuel : Nat) : Option (Except String Rat) :=
  (e.lengthValue fuel).map (Except.map fun len =>
    bigDiv (e.diffInBusinessTime time absolute)
      (durAsSeconds len / durAsSeconds (e.precision : Dur)))

/-- `diffInBusinessDays(time, absolute)`:
`diffInPartialBusinessDays(time, absolute).round(0, 0)`. -/
def BusinessTime.diffInBusinessDays (e : BusinessTime) (time : Ms)
    (absolute : Bool) (fuel : Nat) : Option (Except String Int) :=
  (e.diffInPartialBusinessDays time absolute fuel).map (Except.map bigRound00)

/-- The whole-day jump of `addBusinessDays`:
`next = this.add(businessDaysToAdd.round(0, 0), "days")`. -/
def BusinessTime.addBusinessDaysJump (e : BusinessTime) (n : Rat) : BusinessTime :=
  e.addDays (bigRound00 n)

/-- The whole-day jump of `subBusinessDays`:
`prev = this.subtract(businessDaysToSub.round(0, 0), "days")`. -/
def BusinessTime.subBusinessDaysJump (e : BusinessTime) (n : Rat) : BusinessTime :=
  e.subDays (bigRound00 n)

/-- The `addBusinessDays` correction loop: while the residual is positive,
subtract `dec` whenever the current instant is business time, then advance by
`prec`.  Unbounded in the source (fueled here). -/
def addBusinessLoop (prec : Nat) (dec : Rat) :
    Nat → Rat → BusinessTime → Option BusinessTime
  | 0, r, next => if 0 < r then none else some next
  | fuel + 1, r, next =>
    if 0 < r then
      addBusinessLoop prec dec fuel (if next.isBusinessTime then r - dec else r)
        (next.addMs prec)
    else some next

/-- The `subBusinessDays` correction loop: while the residual is positive,
step back by `prec` first, then subtract `dec` if the landed instant is
business time. -/
def subBusinessLoop (prec : Nat) (dec : Rat) :
    Nat → Rat → BusinessTime → Option BusinessTime
  | 0, r, prev => if 0 < r then none else some prev
  | fuel + 1, r, prev =>
    if 0 < r then
      subBusinessLoop prec dec fuel
        (if (prev.subMs prec).isBusinessTime then r - dec else r) (prev.subMs prec)
    else some prev

/-- `addBusinessDays` for a non-negative argument: jump whole days, subtract
the fractional business days covered by the jump, then run the correction
loop with `decrement = precision.asDays() / lengthOfBusinessDay().asDays()`
(a big.js division of the two day counts).  The two `lengthOfBusinessDay()`
calls of the source see the same duration (the first call fills the cache), so
the single resolved `len` is used for both. -/
def BusinessTime.addBusinessDaysPos (e : BusinessTime) (n : Rat) (fuel : Nat) :
    Option (Except String BusinessTime) :=
  let next0 := e.addBusinessDaysJump n
  match e.lengthValue fuel with
  | none => none
  | some (.error msg) => some (.error msg)
  | some (.ok len) =>
    let residual := n - bigDiv (e.diffInBusinessTime next0.moment true)
      (durAsSeconds len / durAsSeconds (e.precision : Dur))
    let dec := bigDiv (durAsDays (e.precision : Dur)) (durAsDays len)
    (addBusinessLoop e.precision dec fuel residual next0).map .ok

/-- `subBusinessDays` for a non-negative argument (mirror image of
`addBusinessDaysPos`). -/
def BusinessTime.subBusinessDaysPos (e : BusinessTime) (n : Rat) (fuel : Nat) :
    Option (Except String BusinessTime) :=
  let prev0 := e.subBusinessDaysJump n
  match e.lengthValue fuel with
  | none => none
  | some (.error msg) => some (.error msg)
  | some (.ok len) =>
    let residual := n - bigDiv (e.diffInBusinessTime prev0.moment true)
      (durAsSeconds len / durAsSeconds (e.precision : Dur))
    let dec := bigDiv (durAsDays (e.precision : Dur)) (durAsDays len)
    (subBusinessLoop e.precision dec fuel residual prev0).map .ok

/-- `addBusinessDays(n)`: delegate to `subBusinessDays(|n|)` when `n < 0`. -/
def BusinessTime.addBusinessDays (e : BusinessTime) (n : Rat) (fuel : Nat) :
    Option (Except String BusinessTime) :=
  if n < 0 then e.subBusinessDaysPos (-n) fuel else e.addBusinessDaysPos n fuel

/-- `subBusinessDays(n)`: delegate to `addBusinessDays(|n|)` when `n < 0`. -/
def BusinessTime.subBusinessDays (e : BusinessTime) (n : Rat) (fuel : Nat) :
    Option (Except String BusinessTime) :=
  if n < 0 then e.addBusinessDaysPos (-n) fuel else e.subBusinessDaysPos n fuel

/-- An engine with the constructor defaults: 1-hour precision and the default
constraint list, cache unset. -/
def mkDefault (t : Ms) : BusinessTime := ⟨t, 3600000, defaultConstraints, none⟩

/-- Modelled from the spec: the diff algorithm as §4.2 describes it — "let
start = min(this, other), end = max(this, other); step x from start by
precision, testing isBusinessTime(x) before each advance, incrementing a
counter on true, until x >= end", where `isBusinessTime` is the ENGINE'S OWN
predicate (the AND of its constraint list in supplied order), with the
same-minute guard and the same sign handling as the source. -/
def specDiffInBusinessTime (e : BusinessTime) (time : Ms) (absolute : Bool) : Rat :=
  if sameMinute time e.moment then 0
  else if time < e.moment then
    diffStepsAux (fun t => e.constraints.all fun c => c t)
        e.precision e.moment (diffStepsFuel e.precision time e.moment) time 0
      * (if absolute then 1 else -1)
  else
    diffStepsAux (fun t => e.constraints.all fun c => c t)
        e.precision time (diffStepsFuel e.precision e.moment time) e.moment 0
      * 1

/-- Modelled from the spec: "rounded to the nearest integer with ties rounded
away from zero" (the rounding the spec claims for `daysToJump` and
`diffInBusinessDays`). -/
def specRoundHalfAwayFromZero (q : Rat) : Int :=
  if 0 ≤ q then ⌊q + 1/2⌋ else ⌈q - 1/2⌉

/-- Truncation towards zero agrees with the floor on non-negative numbers. -/
lemma bigRound00_of_nonneg {q : Rat} (h : 0 ≤ q) : bigRound00 q = ⌊q⌋ := by
  simp [bigRound00, h]

/-- Truncation towards zero is an odd function. -/
lemma bigRound00_neg (q : Rat) : bigRound00 (-q) = -bigRound00 q := by
  rcases lt_trichotomy q 0 with h | h | h
  · have h1 : (0 : Rat) ≤ -q := by linarith
    have h2 : ¬ (0 : Rat) ≤ q := not_le.2 h
    rw [bigRound00, bigRound00, if_pos h1, if_neg h2, Int.floor_neg]
  · norm_num [h, bigRound00]
  · have h1 : ¬ (0 : Rat) ≤ -q := by simp; linarith
    have h2 : (0 : Rat) ≤ q := h.le
    rw [bigRound00, bigRound00, if_neg h1, if_pos h2, Int.ceil_neg]

/-- Round-half-away-from-zero is an odd function. -/
lemma bigRoundHalfUp_neg (q : Rat) : bigRoundHalfUp (-q) = -bigRoundHalfUp q := by
  rcases lt_trichotomy q 0 with h | h | h
  · have h1 : (0 : Rat) ≤ -q := by linarith
    have h2 : ¬ (0 : Rat) ≤ q := not_le.2 h
    have h3 : -q + 1/2 = -(q - 1/2) := by ring
    rw [bigRoundHalfUp, bigRoundHalfUp, if_pos h1, if_neg h2, h3, Int.floor_neg]
  · norm_num [h, bigRoundHalfUp]
  · have h1 : ¬ (0 : Rat) ≤ -q := by simp; linarith
    have h2 : (0 : Rat) ≤ q := h.le
    have h3 : -q - 1/2 = -(q + 1/2) := by ring
    rw [bigRoundHalfUp, bigRoundHalfUp, if_neg h1, if_pos h2, h3, Int.ceil_neg]

/-- big.js division is odd in its dividend. -/
lemma bigDiv_neg (x y : Rat) : bigDiv (-x) y = -bigDiv x y := by
  have h : -x / y * 10 ^ 20 = -(x / y * 10 ^ 20) := by ring
  simp [bigDiv, h, bigRoundHalfUp_neg, neg_div]

/-- The same-minute test is symmetric. -/
lemma sameMinute_comm (a b : Ms) : sameMinute a b = sameMinute b a := by
  simp [sameMinute, eq_comm]

/-- The zero-length check `duration.asMinutes() <= 0` holds exactly for
non-positive durations. -/
lemma durAsMinutes_nonpos_iff (d : Dur) : durAsMinutes d ≤ 0 ↔ d ≤ 0 := by
  rw [durAsMinutes, div_le_iff₀ (show (0:Rat) < 60000 by norm_num), zero_mul]

/-- The over-24h check `duration.asHours() > 24` holds exactly for durations
above 86400000 ms. -/
lemma durAsHours_gt24_iff (d : Dur) : 24 < durAsHours d ↔ 86400000 < d := by
  rw [durAsHours, lt_div_iff₀ (show (0:Rat) < 3600000 by norm_num)]
  norm_num

/-- C1.  The claim says `diffInBusinessTime` counts exactly the steps whose
instant satisfies the engine's own `isBusinessTime` (the AND of its constraint
list, not some other constraint set).  The code instead builds its stepping
engine as `new BusinessTime(start.clone())`, which takes the constructor's
DEFAULT constraints.  At the failing input — an engine with the EMPTY
constraint list (every instant is business time for it) at Saturday
2018-05-26T00:00:00Z, diffed against 02:00:00Z the same day with 1-hour
precision — the spec's own-constraints count is 2, but the code counts with
the default 09:00-17:00 Mon-Fri rules and returns 0. -/
theorem BusinessTime.diffInBusinessTime_uses_default_constraints :
    BusinessTime.isBusinessTime ⟨1527292800000, 3600000, [], none⟩ = true ∧
    specDiffInBusinessTime ⟨1527292800000, 3600000, [], none⟩ 1527300000000 true = 2 ∧
    BusinessTime.diffInBusinessTime ⟨1527292800000, 3600000, [], none⟩ 1527300000000 true = 0 :=
  ⟨rfl, by with_unfolding_all rfl, by with_unfolding_all rfl⟩

/-- C2.  The claim says every transformation (including `startOf`) leaves the
receiver's instant unchanged.  The code's `startOf` runs
`this.moment.startOf(unit)`, and moment.js `startOf` mutates the moment in
place: after `startOf("day")` on an engine at Monday 2018-05-21T12:00:00Z the
receiver's instant has become 2018-05-21T00:00:00Z. -/
theorem BusinessTime.startOf_mutates_receiver :
    (mkDefault 1526904000000).startOfDayRun.2.moment = 1526860800000 ∧
    (mkDefault 1526904000000).moment = 1526904000000 ∧
    (1526860800000 : Ms) ≠ 1526904000000 :=
  ⟨rfl, rfl, by decide⟩

/-- C3 counterexample.  The claim says the whole-day jump of
`addBusinessDays(n)` is `n` rounded to the NEAREST integer with ties away
from zero, so `n = 2.5` would jump 3 days.  `Big.round(0, 0)` truncates
towards zero, so at `n = 5/2` the jump target differs from the claimed one
(2 days, not 3). -/
theorem BusinessTime.addBusinessDaysJump_round_half_cex :
    ((mkDefault 1526893200000).addBusinessDaysJump (5/2)).moment ≠
      (mkDefault 1526893200000).moment + 86400000 * specRoundHalfAwayFromZero (5/2) := by
  with_unfolding_all decide

/-- C3 (amended).  For `n ≥ 0`, `addBusinessDays(n)` and `subBusinessDays(n)`
first jump by `daysToJump = Big.round(n, 0, 0)` whole calendar days, where the
rounding truncates towards zero — the floor of `n` for non-negative `n`
(`n = 2.5` jumps 2 days, not 3) — before the residual-correction loop runs
from the jump target. -/
theorem BusinessTime.businessDaysJump_truncates (e : BusinessTime) (n : Rat)
    (h : 0 ≤ n) :
    (e.addBusinessDaysJump n).moment = e.moment + 86400000 * ⌊n⌋ ∧
    (e.subBusinessDaysJump n).moment = e.moment - 86400000 * ⌊n⌋ ∧
    (∀ fuel, e.addBusinessDays n fuel = e.addBusinessDaysPos n fuel ∧
      e.subBusinessDays n fuel = e.subBusinessDaysPos n fuel) := by
  have hnn : ¬ n < 0 := not_lt.2 h
  refine ⟨?_, ?_, fun fuel => ⟨?_, ?_⟩⟩
  · simp [BusinessTime.addBusinessDaysJump, BusinessTime.addDays,
      BusinessTime.atMoment, bigRound00_of_nonneg h]
  · simp [BusinessTime.subBusinessDaysJump, BusinessTime.subDays,
      BusinessTime.atMoment, bigRound00_of_nonneg h]
  · simp [BusinessTime.addBusinessDays, hnn]
  · simp [BusinessTime.subBusinessDays, hnn]

/-- C3 witness: the amended jump equations at the concrete input `n = 5/2` on
the default engine at Monday 2018-05-21T09:00:00Z. -/
theorem BusinessTime.businessDaysJump_truncates_witness :
    (0 : Rat) ≤ 5/2 ∧
    (((mkDefault 1526893200000).addBusinessDaysJump (5/2)).moment
        = (mkDefault 1526893200000).moment + 86400000 * ⌊(5/2 : Rat)⌋ ∧
      ((mkDefault 1526893200000).subBusinessDaysJump (5/2)).moment
        = (mkDefault 1526893200000).moment - 86400000 * ⌊(5/2 : Rat)⌋ ∧
      (∀ fuel, (mkDefault 1526893200000).addBusinessDays (5/2) fuel
          = (mkDefault 1526893200000).addBusinessDaysPos (5/2) fuel ∧
        (mkDefault 1526893200000).subBusinessDays (5/2) fuel
          = (mkDefault 1526893200000).subBusinessDaysPos (5/2) fuel)) :=
  ⟨by norm_num,
    BusinessTime.businessDaysJump_truncates (mkDefault 1526893200000) (5/2) (by norm_num)⟩

/-- C4 counterexample.  The claim says `diffInBusinessDays` is
`diffInPartialBusinessDays` rounded to the nearest integer, ties away from
zero (so a partial diff of 0.7 would yield 1).  From Monday 2018-05-21T09:00Z
to 16:00Z the partial diff is 7/8 under the defaults; the code returns 0
(truncation), while the claimed rounding of 7/8 is 1 ≠ 0. -/
theorem BusinessTime.diffInBusinessDays_round_half_cex :
    (mkDefault 1526893200000).diffInBusinessDays 1526918400000 true 50
      = some (.ok 0) ∧
    (mkDefault 1526893200000).diffInPartialBusinessDays 1526918400000 true 50
      = some (.ok (7/8)) ∧
    specRoundHalfAwayFromZero (7/8) ≠ 0 :=
  ⟨by with_unfolding_all rfl, by with_unfolding_all rfl, by with_unfolding_all decide⟩

/-- C4 (amended).  For every pair of instants and both values of the absolute
flag, `diffInBusinessDays` equals `diffInPartialBusinessDays` rounded TOWARDS
ZERO (`Big.round(0, 0)` is `RoundDown`): the floor for non-negative values and
the ceiling for negative ones; a partial diff of 1.5 yields 1 and 0.7 yields
0. -/
theorem BusinessTime.diffInBusinessDays_truncates :
    (∀ (e : BusinessTime) (t : Ms) (absolute : Bool) (fuel : Nat),
      e.diffInBusinessDays t absolute fuel
        = (e.diffInPartialBusinessDays t absolute fuel).map
            (Except.map fun q => if 0 ≤ q then ⌊q⌋ else ⌈q⌉)) ∧
    bigRound00 (3/2) = 1 ∧ bigRound00 (7/10) = 0 :=
  ⟨fun _ _ _ _ => rfl, by with_unfolding_all rfl, by with_unfolding_all rfl⟩

/-- C6 counterexample.  The claim says `endOfBusinessDay()` of the default
engine at Monday 2018-05-21T12:00:00Z is 2018-05-21T16:00:00Z.  The code
starts from `endOf("day")` = 23:59:59.999 and steps back in whole hours, so it
lands on 16:59:59.999, never on 16:00:00. -/
theorem BusinessTime.endOfBusinessDay_boundary_cex :
    ((mkDefault 1526904000000).endOfBusinessDay 24).map (fun r => r.moment)
      ≠ some 1526918400000 := by
  with_unfolding_all decide

/-- C6 (amended).  Under the default constraints and 1-hour precision, the
engine at Monday 2018-05-21T12:00:00Z has `startOfBusinessDay()` at
2018-05-21T09:00:00.000Z and `endOfBusinessDay()` at 2018-05-21T16:59:59.999Z
(the last stepping-back instant from 23:59:59.999 whose hour is below 17). -/
theorem BusinessTime.defaultDay_bounds :
    ((mkDefault 1526904000000).startOfBusinessDay 24).map (fun r => r.moment)
      = some 1526893200000 ∧
    ((mkDefault 1526904000000).endOfBusinessDay 24).map (fun r => r.moment)
      = some 1526921999999 :=
  ⟨by with_unfolding_all rfl, by with_unfolding_all rfl⟩

/-- C7.  For every engine with the default constraints, 1-hour precision and
an empty cache, `lengthOfBusinessDay()` resolves — by anchoring a temporary
engine at the fixed reference day 2018-05-23, taking its `startOfBusinessDay`
and `endOfBusinessDay` and computing `diffBusiness` between them — to exactly
8 hours (28800000 ms), whatever the engine's own instant, and caches it. -/
theorem BusinessTime.lengthOfBusinessDay_default_eight_hours :
    ∀ t : Ms, (mkDefault t).lengthOfBusinessDay 50
      = some ({ mkDefault t with lengthOfBusinessDayCached := some 28800000 },
          .ok 28800000) := by
  intro t
  have hcore : determineLengthCore 3600000 defaultConstraints 50 = some 28800000 := by
    with_unfolding_all rfl
  have hmin : ¬ durAsMinutes 28800000 ≤ 0 := by
    rw [durAsMinutes_nonpos_iff]; norm_num
  have hhr : ¬ (24 : Rat) < durAsHours 28800000 := by
    rw [durAsHours_gt24_iff]; norm_num
  simp only [BusinessTime.lengthOfBusinessDay, mkDefault,
    BusinessTime.determineLengthOfBusinessDay, hcore, Option.map_some',
    BusinessTime.setLengthOfBusinessDay, if_neg hmin, if_neg hhr, Option.getD_some]

/-- C5.  `setLengthOfBusinessDay(duration)` throws the zero-length error
exactly when the duration is non-positive, throws the over-24-hours error
exactly when it exceeds 24 hours, and for a duration in (0, 24h] caches it —
so a subsequent `lengthOfBusinessDay()` returns it — and returns the updated
engine (the source returns `this` with the cache field set). -/
theorem BusinessTime.setLengthOfBusinessDay_spec (e : BusinessTime) (d : Dur)
    (fuel : Nat) :
    ((e.setLengthOfBusinessDay d).2 = .error zeroLengthMsg ↔ d ≤ 0) ∧
    ((e.setLengthOfBusinessDay d).2 = .error tooLongMsg ↔ 86400000 < d) ∧
    (0 < d → d ≤ 86400000 →
      (e.setLengthOfBusinessDay d).1
          = { e with lengthOfBusinessDayCached := some d } ∧
      (e.setLengthOfBusinessDay d).2
          = .ok { e with lengthOfBusinessDayCached := some d } ∧
      BusinessTime.lengthOfBusinessDay
          { e with lengthOfBusinessDayCached := some d } fuel
        = some ({ e with lengthOfBusinessDayCached := some d }, .ok d)) := by
  have hmsg : tooLongMsg ≠ zeroLengthMsg := by decide
  refine ⟨?_, ?_, fun hpos hle => ?_⟩
  · by_cases h1 : durAsMinutes d ≤ 0
    · simp [BusinessTime.setLengthOfBusinessDay, h1,
        (durAsMinutes_nonpos_iff d).mp h1]
    · have hd : ¬ d ≤ 0 := fun hc => h1 ((durAsMinutes_nonpos_iff d).mpr hc)
      by_cases h2 : 24 < durAsHours d
      · simp [BusinessTime.setLengthOfBusinessDay, h1, h2, hmsg, hd]
      · simp [BusinessTime.setLengthOfBusinessDay, h1, h2, hd]
  · by_cases h1 : durAsMinutes d ≤ 0
    · have hd : d ≤ 0 := (durAsMinutes_nonpos_iff d).mp h1
      have : ¬ 86400000 < d := by intro hc; linarith
      simp [BusinessTime.setLengthOfBusinessDay, h1, hmsg.symm, this]
    · by_cases h2 : 24 < durAsHours d
      · simp [BusinessTime.setLengthOfBusinessDay, h1, h2,
          (durAsHours_gt24_iff d).mp h2]
      · have : ¬ 86400000 < d := fun hc => h2 ((durAsHours_gt24_iff d).mpr hc)
        simp [BusinessTime.setLengthOfBusinessDay, h1, h2, this]
  · have h1 : ¬ durAsMinutes d ≤ 0 := fun hc =>
      absurd ((durAsMinutes_nonpos_iff d).mp hc) (not_le.2 hpos)
    have h2 : ¬ 24 < durAsHours d := fun hc =>
      absurd ((durAsHours_gt24_iff d).mp hc) (not_lt.2 hle)
    refine ⟨?_, ?_, rfl⟩ <;>
      simp [BusinessTime.setLengthOfBusinessDay, h1, h2]

/-- C5 witness: the in-range duration 8 hours (28800000 ms) on a concrete
default engine. -/
theorem BusinessTime.setLengthOfBusinessDay_spec_witness :
    (0 : Dur) < 28800000 ∧ (28800000 : Dur) ≤ 86400000 ∧
    (((mkDefault 0).setLengthOfBusinessDay 28800000).1
        = { mkDefault 0 with lengthOfBusinessDayCached := some 28800000 } ∧
      ((mkDefault 0).setLengthOfBusinessDay 28800000).2
        = .ok { mkDefault 0 with lengthOfBusinessDayCached := some 28800000 } ∧
      BusinessTime.lengthOfBusinessDay
          { mkDefault 0 with lengthOfBusinessDayCached := some 28800000 } 1
        = some ({ mkDefault 0 with lengthOfBusinessDayCached := some 28800000 },
            .ok 28800000)) :=
  ⟨by norm_num, by norm_num,
    (BusinessTime.setLengthOfBusinessDay_spec (mkDefault 0) 28800000 1).2.2
      (by norm_num) (by norm_num)⟩

/-- C10.  When `setLengthOfBusinessDay` is called with an out-of-range
duration, the invalid duration is stored in the cache BEFORE the error is
thrown (the assignment precedes both validations), so after the failed call a
subsequent `lengthOfBusinessDay()` on the same engine hits the cached branch
and returns the invalid duration without recomputing. -/
theorem BusinessTime.setLengthOfBusinessDay_caches_invalid (e : BusinessTime)
    (d : Dur) (fuel : Nat) (h : d ≤ 0 ∨ 86400000 < d) :
    (e.setLengthOfBusinessDay d).1
        = { e with lengthOfBusinessDayCached := some d } ∧
    (∃ msg, (e.setLengthOfBusinessDay d).2 = .error msg) ∧
    BusinessTime.lengthOfBusinessDay
        { e with lengthOfBusinessDayCached := some d } fuel
      = some ({ e with lengthOfBusinessDayCached := some d }, .ok d) := by
  refine ⟨?_, ?_, rfl⟩
  · simp only [BusinessTime.setLengthOfBusinessDay]
    split_ifs <;> rfl
  · rcases h with h | h
    · have h1 : durAsMinutes d ≤ 0 := (durAsMinutes_nonpos_iff d).mpr h
      exact ⟨zeroLengthMsg, by simp [BusinessTime.setLengthOfBusinessDay, h1]⟩
    · have h1 : ¬ durAsMinutes d ≤ 0 := fun hc =>
        absurd ((durAsMinutes_nonpos_iff d).mp hc) (by linarith)
      have h2 : 24 < durAsHours d := (durAsHours_gt24_iff d).mpr h
      exact ⟨tooLongMsg, by simp [BusinessTime.setLengthOfBusinessDay, h1, h2]⟩

/-- C10 witness: the invalid duration 0 on a concrete default engine. -/
theorem BusinessTime.setLengthOfBusinessDay_caches_invalid_witness :
    ((0 : Dur) ≤ 0 ∨ (86400000 : Dur) < 0) ∧
    (((mkDefault 0).setLengthOfBusinessDay 0).1
        = { mkDefault 0 with lengthOfBusinessDayCached := some 0 } ∧
      (∃ msg, ((mkDefault 0).setLengthOfBusinessDay 0).2 = .error msg) ∧
      BusinessTime.lengthOfBusinessDay
          { mkDefault 0 with lengthOfBusinessDayCached := some 0 } 1
        = some ({ mkDefault 0 with lengthOfBusinessDayCached := some 0 },
            .ok 0)) :=
  ⟨Or.inl (by norm_num),
    BusinessTime.setLengthOfBusinessDay_caches_invalid (mkDefault 0) 0 1
      (Or.inl (by norm_num))⟩

/-- Truncating zero gives zero. -/
lemma bigRound00_zero : bigRound00 0 = 0 := by norm_num [bigRound00]

/-- big.js division with dividend zero gives zero. -/
lemma bigDiv_zero_left (y : Rat) : bigDiv 0 y = 0 := by
  norm_num [bigDiv, bigRoundHalfUp]

/-- An instant shares its minute with itself. -/
lemma sameMinute_self (a : Ms) : sameMinute a a = true := by simp [sameMinute]

/-- `diffInBusinessTime` of an engine against its own instant is zero (the
same-minute guard fires). -/
lemma diffInBusinessTime_self (e : BusinessTime) (absolute : Bool) :
    e.diffInBusinessTime e.moment absolute = 0 := by
  simp [BusinessTime.diffInBusinessTime, sameMinute_self]

/-- The add correction loop exits immediately on a non-positive residual. -/
lemma addBusinessLoop_of_nonpos (prec : Nat) (dec : Rat) (fuel : Nat) (r : Rat)
    (nx : BusinessTime) (h : r ≤ 0) :
    addBusinessLoop prec dec fuel r nx = some nx := by
  cases fuel <;> simp [addBusinessLoop, not_lt.2 h]

/-- The sub correction loop exits immediately on a non-positive residual. -/
lemma subBusinessLoop_of_nonpos (prec : Nat) (dec : Rat) (fuel : Nat) (r : Rat)
    (prev : BusinessTime) (h : r ≤ 0) :
    subBusinessLoop prec dec fuel r prev = some prev := by
  cases fuel <;> simp [subBusinessLoop, not_lt.2 h]

/-- C8.  `addBusinessDays(0)` and `subBusinessDays(0)` are identity on the
instant: whenever the business-day-length resolution succeeds (the source
computes the decrement unconditionally, so a failing resolution would throw or
spin instead), each returns an engine at the receiver's instant with the
receiver's precision and constraints (a fresh engine, cache unset, as every
transformation produces). -/
theorem BusinessTime.businessDays_zero_identity (e : BusinessTime) (fuel : Nat)
    (len : Dur) (h : e.lengthValue fuel = some (Except.ok len)) :
    e.addBusinessDays 0 fuel
        = some (.ok ⟨e.moment, e.precision, e.constraints, none⟩) ∧
    e.subBusinessDays 0 fuel
        = some (.ok ⟨e.moment, e.precision, e.constraints, none⟩) := by
  have hjump : bigRound00 (0 : Rat) = 0 := bigRound00_zero
  have hn : ¬ (0 : Rat) < 0 := lt_irrefl 0
  constructor
  · simp only [BusinessTime.addBusinessDays, if_neg hn,
      BusinessTime.addBusinessDaysPos, BusinessTime.addBusinessDaysJump, hjump,
      BusinessTime.addDays, BusinessTime.atMoment, mul_zero, add_zero, h]
    rw [diffInBusinessTime_self e true, bigDiv_zero_left, sub_zero,
      addBusinessLoop_of_nonpos _ _ _ _ _ le_rfl]
    rfl
  · simp only [BusinessTime.subBusinessDays, if_neg hn,
      BusinessTime.subBusinessDaysPos, BusinessTime.subBusinessDaysJump, hjump,
      BusinessTime.subDays, BusinessTime.atMoment, mul_zero, sub_zero, h]
    rw [diffInBusinessTime_self e true, bigDiv_zero_left, sub_zero,
      subBusinessLoop_of_nonpos _ _ _ _ _ le_rfl]
    rfl

/-- C8 witness: the default engine at Monday 2018-05-21T12:00:00Z, whose
business-day length resolves to 8 hours within fuel 50. -/
theorem BusinessTime.businessDays_zero_identity_witness :
    (mkDefault 1526904000000).lengthValue 50 = some (Except.ok 28800000) ∧
    ((mkDefault 1526904000000).addBusinessDays 0 50
        = some (.ok ⟨(mkDefault 1526904000000).moment,
            (mkDefault 1526904000000).precision,
            (mkDefault 1526904000000).constraints, none⟩) ∧
      (mkDefault 1526904000000).subBusinessDays 0 50
        = some (.ok ⟨(mkDefault 1526904000000).moment,
            (mkDefault 1526904000000).precision,
            (mkDefault 1526904000000).constraints, none⟩)) :=
  ⟨by with_unfolding_all rfl,
    BusinessTime.businessDays_zero_identity (mkDefault 1526904000000) 50 28800000
      (by with_unfolding_all rfl)⟩

/-- Swapping the operands of `diffInBusinessTime` (same precision; the
constraint lists and caches are irrelevant to the diff: the stepping engine
always carries the default constraints) leaves the absolute diff unchanged. -/
lemma diffInBusinessTime_swap_true (a b : Ms) (P : Nat) (C C' : List Constraint)
    (L L' : Option Dur) :
    BusinessTime.diffInBusinessTime ⟨a, P, C, L⟩ b true
      = BusinessTime.diffInBusinessTime ⟨b, P, C', L'⟩ a true := by
  by_cases hm : sameMinute b a = true
  · have hm' : sameMinute a b = true := by rwa [sameMinute_comm]
    simp [BusinessTime.diffInBusinessTime, hm, hm']
  · have hm' : ¬ sameMinute a b = true := by rwa [sameMinute_comm]
    rw [Bool.not_eq_true] at hm hm'
    rcases lt_trichotomy a b with hab | hab | hab
    · have h1 : ¬ b < a := not_lt.2 hab.le
      simp [BusinessTime.diffInBusinessTime, hm, hm', h1, hab]
    · subst hab
      exact absurd (sameMinute_self a) (by simp [hm])
    · have h1 : ¬ a < b := not_lt.2 hab.le
      simp [BusinessTime.diffInBusinessTime, hm, hm', h1, hab]

/-- Swapping the operands of `diffInBusinessTime` negates the signed
(`absolute = false`) diff. -/
lemma diffInBusinessTime_swap_neg (a b : Ms) (P : Nat) (C C' : List Constraint)
    (L L' : Option Dur) :
    BusinessTime.diffInBusinessTime ⟨a, P, C, L⟩ b false
      = -BusinessTime.diffInBusinessTime ⟨b, P, C', L'⟩ a false := by
  by_cases hm : sameMinute b a = true
  · have hm' : sameMinute a b = true := by rwa [sameMinute_comm]
    simp [BusinessTime.diffInBusinessTime, hm, hm']
  · have hm' : ¬ sameMinute a b = true := by rwa [sameMinute_comm]
    rw [Bool.not_eq_true] at hm hm'
    rcases lt_trichotomy a b with hab | hab | hab
    · have h1 : ¬ b < a := not_lt.2 hab.le
      simp [BusinessTime.diffInBusinessTime, hm, hm', h1, hab]
    · subst hab
      exact absurd (sameMinute_self a) (by simp [hm])
    · have h1 : ¬ a < b := not_lt.2 hab.le
      simp [BusinessTime.diffInBusinessTime, hm, hm', h1, hab]

/-- The duration produced by `lengthOfBusinessDay()` does not depend on the
engine's own instant: the typical-day engine is anchored at the fixed
reference date and carries only the precision and constraints. -/
lemma lengthValue_moment_irrel (a b : Ms) (P : Nat) (C : List Constraint)
    (L : Option Dur) (fuel : Nat) :
    BusinessTime.lengthValue ⟨a, P, C, L⟩ fuel
      = BusinessTime.lengthValue ⟨b, P, C, L⟩ fuel := by
  cases L with
  | some d => rfl
  | none =>
    simp only [BusinessTime.lengthValue, BusinessTime.lengthOfBusinessDay,
      BusinessTime.determineLengthOfBusinessDay, Option.map_map]
    congr 1
    funext len
    simp only [Function.comp, BusinessTime.setLengthOfBusinessDay]
    split_ifs <;> rfl

/-- Composition of two maps over an optional `Except` value. -/
lemma option_except_map_map {α β γ : Type} (o : Option (Except String α))
    (f : α → β) (g : β → γ) :
    (o.map (Except.map f)).map (Except.map g)
      = o.map (Except.map fun x => g (f x)) := by
  cases o with
  | none => rfl
  | some r => cases r <;> rfl

/-- C9.  For engines at two instants sharing precision, constraints and cache,
`diffInBusinessDays` is symmetric with `absolute = true` and antisymmetric
(negated under operand swap) with `absolute = false`. -/
theorem BusinessTime.diffInBusinessDays_sym_antisym (a b : Ms) (P : Nat)
    (C : List Constraint) (L : Option Dur) (fuel : Nat) :
    BusinessTime.diffInBusinessDays ⟨a, P, C, L⟩ b true fuel
        = BusinessTime.diffInBusinessDays ⟨b, P, C, L⟩ a true fuel ∧
    BusinessTime.diffInBusinessDays ⟨a, P, C, L⟩ b false fuel
        = (BusinessTime.diffInBusinessDays ⟨b, P, C, L⟩ a false fuel).map
            (Except.map fun z => -z) := by
  have hL := lengthValue_moment_irrel a b P C L fuel
  constructor
  · have hd := diffInBusinessTime_swap_true a b P C C L L
    simp only [BusinessTime.diffInBusinessDays,
      BusinessTime.diffInPartialBusinessDays, hL, hd]
  · have hd := diffInBusinessTime_swap_neg a b P C C L L
    simp only [BusinessTime.diffInBusinessDays,
      BusinessTime.diffInPartialBusinessDays, hL, hd, option_except_map_map,
      bigDiv_neg, bigRound00_neg]
